import Mathlib

/-!
# XtreemFS client core

A shallow embedding of

* `MRCProxy` (`src/libxtreemfs/mrc_proxy.cpp`): constructor, destructor and
  `handle`, the credential-injection step of the metadata proxy;
* the cache-policy flag constants of `Volume` (`include/xtreemfs/volume.h`);
* the `FileStateMap` member of `Volume`, a `map<string, FileState*>`.

C++ objects live in explicit object stores and are referred to by address, so
that "the same object" is equality of addresses and a mutation through one
pointer is seen through every other pointer to that object.
-/

set_option autoImplicit false

namespace xtreemfs

/-! ## Object stores -/

/-- An object address. A C++ pointer is an `Option Ptr` (`NULL` is `none`), a
reference is a `Ptr`. -/
abbrev Ptr := Nat

/-- An object store: slot `p` holds the object living at address `p`, or `none`
when that object has been deleted. Addresses past the end were never
allocated. -/
abbrev Heap (α : Type) := List (Option α)

/-- The object at address `p`, if there is a live one. -/
def Heap.read {α : Type} (h : Heap α) (p : Ptr) : Option α :=
  h[p]?.join

/-- Overwrite the object at address `p`. -/
def Heap.write {α : Type} (h : Heap α) (p : Ptr) (a : α) : Heap α :=
  h.set p (some a)

/-- The `new` expression: the object is placed at the first address never
used before, and that address is returned. -/
def Heap.alloc {α : Type} (h : Heap α) (a : α) : Ptr × Heap α :=
  (h.length, h ++ [some a])

/-! ## Data model of the metadata proxy -/

/-- Modelled from the spec: the declaration of `UserCredentials` is not part of
the available sources. The spec calls it an identity, a "username/password
pair"; `mrc_proxy.cpp` only uses `set_password`. The field `identity` stands
for every field other than the password. -/
structure UserCredentials (ι : Type) where
  identity : ι
  password : String
  deriving DecidableEq, Repr

/-- `UserCredentials::set_password`. -/
def UserCredentials.set_password {ι : Type} (self : UserCredentials ι)
    (password : String) : UserCredentials ι :=
  { self with password := password }

/-- Modelled from the spec: the declaration of `UserDatabase` (the credential
source) is not part of the available sources. It is a reference-counted object
("a shared, reference-counted identity" source); `refcnt` is the reference
count kept by its `Object` base, as an unbounded natural number (the width of
the counter is not in the sources). `consultations` counts the calls of
`getCurrentUserCredentials` made on this object so far; a default-constructed
database has received none. -/
structure UserDatabase where
  refcnt : Nat
  consultations : Nat
  deriving DecidableEq, Repr

/-- A request travelling through the proxy. `credentials` is what
`get_credentials()` returns, `NULL` when nothing is attached; `message` stands
for the rest of the request, which `MRCProxy::handle` never looks at. -/
structure Request where
  credentials : Option Ptr
  message : Nat
  deriving DecidableEq, Repr

/-- `Request::get_credentials`. -/
def Request.get_credentials (self : Request) : Option Ptr :=
  self.credentials

/-- `Request::set_credentials`. -/
def Request.set_credentials (self : Request) (credentials : Option Ptr) : Request :=
  { self with credentials := credentials }

/-- The state `MRCProxy` runs in.

* `credentials`: the store of `UserCredentials` objects;
* `user_databases`: the store of `UserDatabase` objects;
* `current_user d n`: the pointer that `getCurrentUserCredentials`, called on
  the database at address `d` for the `n`-th time (counting from zero),
  returns; it is arbitrary, since the identity is resolved outside this code;
* `forwarded`: the requests that reached `MRCInterfaceProxy::handle`, oldest
  first, each with the credentials object it pointed to at that moment. -/
structure World (ι : Type) where
  credentials : Heap (UserCredentials ι)
  user_databases : Heap UserDatabase
  current_user : Ptr → Nat → Option Ptr
  forwarded : List (Request × Option (UserCredentials ι))

/-- Modelled from the spec: `UserDatabase::getCurrentUserCredentials` is not
part of the available sources; the spec says the credential source "supplies
current credentials on demand" and may have no identity available. The call on
the database at `user_database` returns the pointer the environment fixes for
this call and is counted on the database object. Calling it through a dangling
pointer is undefined in C++; here it returns `NULL` and changes nothing. -/
def UserDatabase.getCurrentUserCredentials {ι : Type} (user_database : Ptr)
    (w : World ι) : Option Ptr × World ι :=
  match w.user_databases.read user_database with
  | none => (none, w)
  | some d =>
    let d1 : UserDatabase := { d with consultations := d.consultations + 1 }
    (w.current_user user_database d.consultations,
     { w with user_databases := w.user_databases.write user_database d1 })

/-- The call `user_credentials->set_password( password )` on the object at
address `user_credentials`. -/
def World.set_password {ι : Type} (w : World ι) (user_credentials : Ptr)
    (password : String) : World ι :=
  match w.credentials.read user_credentials with
  | none => w
  | some c =>
    { w with credentials := w.credentials.write user_credentials (c.set_password password) }

/-- Modelled from the spec: `Object::inc_ref` is not part of the available
sources. It takes one more reference to the object and returns the same
pointer. -/
def Object.inc_ref {ι : Type} (user_database : Ptr) (w : World ι) : Ptr × World ι :=
  match w.user_databases.read user_database with
  | none => (user_database, w)
  | some d =>
    let d1 : UserDatabase := { d with refcnt := d.refcnt + 1 }
    (user_database, { w with user_databases := w.user_databases.write user_database d1 })

/-- The expression `new UserDatabase`: a default-constructed database, held by
the one reference that `new` returns. -/
def UserDatabase.new {ι : Type} (w : World ι) : Ptr × World ι :=
  let r := w.user_databases.alloc { refcnt := 1, consultations := 0 }
  (r.1, { w with user_databases := r.2 })

/-- The members of `MRCProxy` that `mrc_proxy.cpp` initialises: the request
handler given to the `MRCInterfaceProxy` base, `password` and
`user_database`. -/
structure MRCProxy where
  request_handler : Ptr
  password : String
  user_database : Ptr
  deriving DecidableEq, Repr

/-- The constructor `MRCProxy::MRCProxy( request_handler, password,
user_database )`. -/
def MRCProxy.constructor {ι : Type} (request_handler : Ptr) (password : String)
    (user_database : Option Ptr) (w : World ι) : MRCProxy × World ι :=
  match user_database with
  | some db =>
    let r := Object.inc_ref db w
    ({ request_handler := request_handler, password := password,
       user_database := r.1 }, r.2)
  | none =>
    let r := UserDatabase.new w
    ({ request_handler := request_handler, password := password,
       user_database := r.1 }, r.2)

/-- Modelled from the spec: `MRCInterfaceProxy::handle`, the base-class handler
that sends the request on, is not part of the available sources. It is recorded
as an observation: the request as it arrives, with the credentials object it
points to. -/
def MRCInterfaceProxy.handle {ι : Type} (request : Request) (w : World ι) : World ι :=
  let seen := request.get_credentials.bind w.credentials.read
  { w with forwarded := w.forwarded ++ [(request, seen)] }

/-- `MRCProxy::handle( Request& request )`. The request is passed by reference,
so the request after the call is returned next to the new state. -/
def MRCProxy.handle {ι : Type} (self : MRCProxy) (request : Request)
    (w : World ι) : Request × World ι :=
  if request.get_credentials = none then
    let r := UserDatabase.getCurrentUserCredentials self.user_database w
    let user_credentials := r.1
    let w1 :=
      match user_credentials with
      | some p => r.2.set_password p self.password
      | none => r.2
    let request1 := request.set_credentials user_credentials
    (request1, MRCInterfaceProxy.handle request1 w1)
  else
    (request, MRCInterfaceProxy.handle request w)

/-- The same request object passed through `MRCProxy::handle` `n` times in a
row, as a retry does. -/
def MRCProxy.handle_times {ι : Type} (self : MRCProxy) :
    Nat → Request → World ι → Request × World ι
  | 0, request, w => (request, w)
  | n + 1, request, w =>
    let r := self.handle request w
    MRCProxy.handle_times self n r.1 r.2

/-- The number of times the database at `user_database` has been consulted;
zero when there is no such object. -/
def World.consultations {ι : Type} (w : World ι) (user_database : Ptr) : Nat :=
  match w.user_databases.read user_database with
  | none => 0
  | some d => d.consultations

/-! ## Cache-policy flags of `Volume` -/

namespace Volume

/-- `const static uint32_t FLAG_WRITE_BACK_DATA_CACHE = 1`. -/
def FLAG_WRITE_BACK_DATA_CACHE : Nat := 1

/-- `const static uint32_t FLAG_WRITE_BACK_FILE_SIZE_CACHE = 2`. -/
def FLAG_WRITE_BACK_FILE_SIZE_CACHE : Nat := 2

/-- `const static uint32_t FLAG_WRITE_BACK_STAT_CACHE = 4`. -/
def FLAG_WRITE_BACK_STAT_CACHE : Nat := 4

/-- `const static uint32_t FLAG_WRITE_THROUGH_DATA_CACHE = 8`. -/
def FLAG_WRITE_THROUGH_DATA_CACHE : Nat := 8

/-- `const static uint32_t FLAG_WRITE_THROUGH_FILE_SIZE_CACHE = 16`. -/
def FLAG_WRITE_THROUGH_FILE_SIZE_CACHE : Nat := 16

/-- `const static uint32_t FLAG_WRITE_THROUGH_STAT_CACHE = 32`. -/
def FLAG_WRITE_THROUGH_STAT_CACHE : Nat := 32

/-- `const static uint32_t FLAGS_DEFAULT = FLAG_WRITE_BACK_FILE_SIZE_CACHE`. -/
def FLAGS_DEFAULT : Nat := FLAG_WRITE_BACK_FILE_SIZE_CACHE

/-- The six cache-policy flags, in the order of their declaration. -/
def cache_flags : List Nat :=
  [FLAG_WRITE_BACK_DATA_CACHE, FLAG_WRITE_BACK_FILE_SIZE_CACHE,
   FLAG_WRITE_BACK_STAT_CACHE, FLAG_WRITE_THROUGH_DATA_CACHE,
   FLAG_WRITE_THROUGH_FILE_SIZE_CACHE, FLAG_WRITE_THROUGH_STAT_CACHE]

/-- The bitmask of a selection of flags, `f1 | f2 | ...` on `uint32_t`. -/
def combine (selection : List Nat) : Nat :=
  (selection.foldr (fun f mask => f ||| mask) 0) % 2 ^ 32

/-- The test of one flag in a mask, `( flags & flag ) == flag`. The header only
declares the constants; this is the test a caller of `get_flags()` writes. -/
def has_flag (flags flag : Nat) : Bool :=
  flags &&& flag == flag

/-- The value of the parameter `flags` inside `Volume::create`: both overloads
declare it as `uint32_t flags = FLAGS_DEFAULT`, so a caller that passes no
flags (`none`) gets `FLAGS_DEFAULT`. -/
def create_flags (flags : Option Nat) : Nat :=
  match flags with
  | some f => f
  | none => FLAGS_DEFAULT

/-! ## The file-state table of `Volume` -/

/-- The member type `typedef map<string, FileState*> FileStateMap`: the entries
of the map, each a path with the address of its `FileState`. The order in which
the map keeps its entries is not modelled. -/
abbrev FileStateMap := List (String × Ptr)

/-- Modelled from the spec: the code that works on `file_state_map` is not part
of the available sources. `map::count`: the number of entries stored for
`path`. -/
def FileStateMap.count (m : FileStateMap) (path : String) : Nat :=
  (m.filter (fun e => e.1 == path)).length

/-- Modelled from the spec: "lookup", `map::find`: the `FileState` stored for
`path`, if any. -/
def FileStateMap.find (m : FileStateMap) (path : String) : Option Ptr :=
  (m.find? (fun e => e.1 == path)).map (fun e => e.2)

/-- Modelled from the spec: `map::insert`, the "creation-or-lookup" step: a
path that is already present keeps its entry and nothing is added. -/
def FileStateMap.insert (m : FileStateMap) (path : String) (file_state : Ptr) :
    FileStateMap :=
  match FileStateMap.find m path with
  | some _ => m
  | none => (path, file_state) :: m

/-- Modelled from the spec: "invalidate", `map::erase` by key. -/
def FileStateMap.erase (m : FileStateMap) (path : String) : FileStateMap :=
  m.filter (fun e => e.1 != path)

/-- Modelled from the spec: "insert-or-update", `m[path] = file_state`: the
entry of `path` is replaced, or created when there is none. -/
def FileStateMap.insert_or_update (m : FileStateMap) (path : String)
    (file_state : Ptr) : FileStateMap :=
  match FileStateMap.find m path with
  | some _ => m.map (fun e => if e.1 == path then (e.1, file_state) else e)
  | none => (path, file_state) :: m

/-- The states the file-state table of a `Volume` can be in: it starts empty
and changes only through the three operations of the table. -/
inductive FileStateMap.Reachable : FileStateMap → Prop
  | empty : FileStateMap.Reachable []
  | insert (m : FileStateMap) (path : String) (file_state : Ptr) :
      FileStateMap.Reachable m →
      FileStateMap.Reachable (FileStateMap.insert m path file_state)
  | insert_or_update (m : FileStateMap) (path : String) (file_state : Ptr) :
      FileStateMap.Reachable m →
      FileStateMap.Reachable (FileStateMap.insert_or_update m path file_state)
  | erase (m : FileStateMap) (path : String) :
      FileStateMap.Reachable m →
      FileStateMap.Reachable (FileStateMap.erase m path)

end Volume

/-! ## Concrete states -/

/-- A state with one credentials object and one database, held by one
reference and not consulted yet, whose current user is that credentials
object. -/
def World.sample : World String :=
  { credentials := [some { identity := "alice", password := "" }]
    user_databases := [some { refcnt := 1, consultations := 0 }]
    current_user := fun _ _ => some 0
    forwarded := [] }

/-- A state like `World.sample` whose database has no current identity. -/
def World.anonymous : World String :=
  { credentials := [some { identity := "alice", password := "" }]
    user_databases := [some { refcnt := 1, consultations := 0 }]
    current_user := fun _ _ => none
    forwarded := [] }

/-- A state in which no object exists yet: both stores are empty. -/
def World.blank : World String :=
  { credentials := []
    user_databases := []
    current_user := fun _ _ => none
    forwarded := [] }

/-- A proxy on the database at address 0. -/
def MRCProxy.sample : MRCProxy :=
  { request_handler := 0, password := "secret", user_database := 0 }

/-- A request without credentials. -/
def Request.sample : Request :=
  { credentials := none, message := 7 }

/-- A request that carries the credentials object at address 0. -/
def Request.authenticated : Request :=
  { credentials := some 0, message := 7 }

/-! ## Lemmas on object stores -/

theorem Heap.read_write_eq {α : Type} (h : Heap α) (p : Nat) (a b : α)
    (hp : h.read p = some b) : (h.write p a).read p = some a := by
  have hlt : p < h.length := by
    by_contra hge
    have hnone : h[p]? = none := List.getElem?_eq_none (Nat.not_lt.mp hge)
    simp [Heap.read, hnone] at hp
  simp [Heap.read, Heap.write, hlt]

theorem Heap.read_write_ne {α : Type} (h : Heap α) (p q : Nat) (a : α)
    (hne : p ≠ q) : (h.write p a).read q = h.read q := by
  simp [Heap.read, Heap.write, List.getElem?_set_ne hne]

theorem Heap.read_length {α : Type} (h : Heap α) : h.read h.length = none := by
  simp [Heap.read]

theorem Heap.read_alloc_new {α : Type} (h : Heap α) (a : α) :
    (h.alloc a).2.read (h.alloc a).1 = some a := by
  simp [Heap.read, Heap.alloc]

theorem Heap.read_alloc_old {α : Type} (h : Heap α) (a : α) (q : Nat)
    (hne : q ≠ h.length) : (h.alloc a).2.read q = h.read q := by
  by_cases hlt : q < h.length
  · simp [Heap.read, Heap.alloc, List.getElem?_append_left hlt]
  · have h1 : h.length < q := Nat.lt_of_le_of_ne (Nat.not_lt.mp hlt) (Ne.symm hne)
    have h2 : (h ++ [some a])[q]? = none :=
      List.getElem?_eq_none (by simpa using h1)
    have h3 : h[q]? = none := List.getElem?_eq_none (Nat.le_of_lt h1)
    simp [Heap.read, Heap.alloc, h2, h3]

/-! ## Lemmas on `MRCProxy::handle` -/

theorem MRCProxy.handle_of_credentials {ι : Type} (self : MRCProxy)
    (request : Request) (w : World ι) (c : Ptr)
    (hreq : request.get_credentials = some c) :
    self.handle request w =
      (request, { w with forwarded := w.forwarded ++ [(request, w.credentials.read c)] }) := by
  simp [MRCProxy.handle, MRCInterfaceProxy.handle, hreq]

theorem MRCProxy.handle_times_of_credentials {ι : Type} (self : MRCProxy)
    (request : Request) (c : Ptr) (hreq : request.get_credentials = some c)
    (n : Nat) (w : World ι) :
    self.handle_times n request w =
      (request, { w with forwarded :=
                    w.forwarded ++ List.replicate n (request, w.credentials.read c) }) := by
  induction n generalizing w with
  | zero => simp [MRCProxy.handle_times]
  | succ k ih =>
    simp only [MRCProxy.handle_times, MRCProxy.handle_of_credentials self request w c hreq]
    rw [ih]
    simp [List.replicate_succ]

theorem UserDatabase.getCurrentUserCredentials_credentials {ι : Type}
    (user_database : Ptr) (w : World ι) :
    (UserDatabase.getCurrentUserCredentials user_database w).2.credentials = w.credentials ∧
    (UserDatabase.getCurrentUserCredentials user_database w).2.forwarded = w.forwarded := by
  unfold UserDatabase.getCurrentUserCredentials
  cases w.user_databases.read user_database <;> simp

theorem UserDatabase.getCurrentUserCredentials_consultations {ι : Type}
    (user_database : Ptr) (w : World ι) (p : Ptr)
    (hsrc : (UserDatabase.getCurrentUserCredentials user_database w).1 = some p) :
    (UserDatabase.getCurrentUserCredentials user_database w).2.consultations user_database
      = w.consultations user_database + 1 := by
  unfold UserDatabase.getCurrentUserCredentials at hsrc ⊢
  unfold World.consultations
  cases hd : w.user_databases.read user_database with
  | none => simp [hd] at hsrc
  | some d => simp [Heap.read_write_eq _ _ _ d hd]

theorem World.set_password_user_databases {ι : Type} (w : World ι) (p : Ptr)
    (password : String) :
    (w.set_password p password).user_databases = w.user_databases ∧
    (w.set_password p password).forwarded = w.forwarded := by
  unfold World.set_password
  cases w.credentials.read p <;> simp

/-- The state in which `MRCProxy::handle` forwards a request that arrived
without credentials, when the credential source answers `p`. -/
theorem MRCProxy.handle_of_identity {ι : Type} (self : MRCProxy)
    (request : Request) (w : World ι) (p : Ptr)
    (hreq : request.get_credentials = none)
    (hsrc : (UserDatabase.getCurrentUserCredentials self.user_database w).1 = some p) :
    self.handle request w =
      (request.set_credentials (some p),
       MRCInterfaceProxy.handle (request.set_credentials (some p))
         ((UserDatabase.getCurrentUserCredentials self.user_database w).2.set_password
            p self.password)) := by
  simp [MRCProxy.handle, hreq, hsrc]

/-! ## Credential injection -/

/-- C1: a request that arrives without credentials, on a proxy whose credential
source answers with a non-NULL identity `p`, leaves `MRCProxy::handle` carrying
exactly the object `p`, and that request is what reaches
`MRCInterfaceProxy::handle`, once. -/
theorem C1_handle_attaches_current_identity {ι : Type} (self : MRCProxy)
    (request : Request) (w : World ι) (p : Ptr)
    (hreq : request.get_credentials = none)
    (hsrc : (UserDatabase.getCurrentUserCredentials self.user_database w).1 = some p) :
    (self.handle request w).1.get_credentials = some p ∧
    (self.handle request w).1.message = request.message ∧
    (self.handle request w).2.forwarded.map Prod.fst
      = w.forwarded.map Prod.fst ++ [{ credentials := some p, message := request.message }] := by
  rw [MRCProxy.handle_of_identity self request w p hreq hsrc]
  simp [MRCInterfaceProxy.handle, Request.set_credentials, Request.get_credentials,
    (World.set_password_user_databases _ _ _).2,
    (UserDatabase.getCurrentUserCredentials_credentials _ _).2]

theorem C1_handle_attaches_current_identity_witness :
    Request.sample.get_credentials = none ∧
    (UserDatabase.getCurrentUserCredentials MRCProxy.sample.user_database World.sample).1
      = some 0 ∧
    (MRCProxy.sample.handle Request.sample World.sample).1.get_credentials = some 0 ∧
    (MRCProxy.sample.handle Request.sample World.sample).1.message = Request.sample.message ∧
    (MRCProxy.sample.handle Request.sample World.sample).2.forwarded.map Prod.fst
      = World.sample.forwarded.map Prod.fst
          ++ [{ credentials := some 0, message := Request.sample.message }] :=
  ⟨rfl, rfl,
   C1_handle_attaches_current_identity MRCProxy.sample Request.sample World.sample 0 rfl rfl⟩

/-- C2: a request that arrives without credentials, on a proxy whose credential
source has no current identity, is still forwarded to
`MRCInterfaceProxy::handle`, exactly once, and still has no credentials then;
no credentials object is touched. -/
theorem C2_handle_without_identity_forwards {ι : Type} (self : MRCProxy)
    (request : Request) (w : World ι)
    (hreq : request.get_credentials = none)
    (hsrc : (UserDatabase.getCurrentUserCredentials self.user_database w).1 = none) :
    (self.handle request w).1 = request ∧
    (self.handle request w).1.get_credentials = none ∧
    (self.handle request w).2.forwarded = w.forwarded ++ [(request, none)] ∧
    (self.handle request w).2.credentials = w.credentials := by
  have hset : request.set_credentials none = request := by
    cases request
    simp_all [Request.set_credentials, Request.get_credentials]
  simp [MRCProxy.handle, hreq, hsrc, hset, MRCInterfaceProxy.handle,
    (UserDatabase.getCurrentUserCredentials_credentials _ _).1,
    (UserDatabase.getCurrentUserCredentials_credentials _ _).2]

theorem C2_handle_without_identity_forwards_witness :
    Request.sample.get_credentials = none ∧
    (UserDatabase.getCurrentUserCredentials MRCProxy.sample.user_database World.anonymous).1
      = none ∧
    (MRCProxy.sample.handle Request.sample World.anonymous).1 = Request.sample ∧
    (MRCProxy.sample.handle Request.sample World.anonymous).1.get_credentials = none ∧
    (MRCProxy.sample.handle Request.sample World.anonymous).2.forwarded
      = World.anonymous.forwarded ++ [(Request.sample, none)] ∧
    (MRCProxy.sample.handle Request.sample World.anonymous).2.credentials
      = World.anonymous.credentials :=
  ⟨rfl, rfl,
   C2_handle_without_identity_forwards MRCProxy.sample Request.sample World.anonymous rfl rfl⟩

/-- C8: a request that already carries credentials goes through
`MRCProxy::handle` unchanged: the credential source is not consulted (no
database object changes), no credentials object changes, so no password does,
and the request reaches `MRCInterfaceProxy::handle` exactly once. -/
theorem C8_handle_keeps_attached_credentials {ι : Type} (self : MRCProxy)
    (request : Request) (w : World ι) (c : Ptr)
    (hreq : request.get_credentials = some c) :
    (self.handle request w).1 = request ∧
    (self.handle request w).2.user_databases = w.user_databases ∧
    (∀ d, (self.handle request w).2.consultations d = w.consultations d) ∧
    (self.handle request w).2.credentials = w.credentials ∧
    (self.handle request w).2.forwarded
      = w.forwarded ++ [(request, w.credentials.read c)] := by
  rw [MRCProxy.handle_of_credentials self request w c hreq]
  simp [World.consultations]

theorem C8_handle_keeps_attached_credentials_witness :
    Request.authenticated.get_credentials = some 0 ∧
    (MRCProxy.sample.handle Request.authenticated World.sample).1 = Request.authenticated ∧
    (MRCProxy.sample.handle Request.authenticated World.sample).2.user_databases
      = World.sample.user_databases ∧
    (∀ d, (MRCProxy.sample.handle Request.authenticated World.sample).2.consultations d
      = World.sample.consultations d) ∧
    (MRCProxy.sample.handle Request.authenticated World.sample).2.credentials
      = World.sample.credentials ∧
    (MRCProxy.sample.handle Request.authenticated World.sample).2.forwarded
      = World.sample.forwarded
          ++ [(Request.authenticated, World.sample.credentials.read 0)] :=
  ⟨rfl,
   C8_handle_keeps_attached_credentials MRCProxy.sample Request.authenticated
     World.sample 0 rfl⟩

/-- C9: on a proxy constructed with password `password`, whenever
`MRCProxy::handle` injects credentials (the request had none and the credential
source returned the object `p`, holding `c` at that moment), the credentials
object the forwarded request points to has the password `password`, whatever
password `c` had, and the other fields of `c`. -/
theorem C9_injected_credentials_carry_proxy_password {ι : Type}
    (request_handler : Ptr) (password : String) (user_database : Option Ptr)
    (w0 : World ι) (request : Request) (w : World ι) (p : Ptr)
    (c : UserCredentials ι)
    (hreq : request.get_credentials = none)
    (hsrc : (UserDatabase.getCurrentUserCredentials
              (MRCProxy.constructor request_handler password user_database w0).1.user_database
              w).1 = some p)
    (hobj : (UserDatabase.getCurrentUserCredentials
              (MRCProxy.constructor request_handler password user_database w0).1.user_database
              w).2.credentials.read p = some c) :
    ((MRCProxy.constructor request_handler password user_database w0).1.handle
        request w).2.forwarded
      = w.forwarded ++ [({ credentials := some p, message := request.message },
                         some { identity := c.identity, password := password })] ∧
    ((MRCProxy.constructor request_handler password user_database w0).1.handle
        request w).2.credentials.read p
      = some { identity := c.identity, password := password } := by
  have hpw : (MRCProxy.constructor request_handler password user_database w0).1.password
      = password := by
    cases user_database <;> rfl
  rw [MRCProxy.handle_of_identity _ request w p hreq hsrc, hpw]
  have hset : ((UserDatabase.getCurrentUserCredentials
      (MRCProxy.constructor request_handler password user_database w0).1.user_database
      w).2.set_password p password).credentials.read p
        = some { identity := c.identity, password := password } := by
    simp [World.set_password, hobj, Heap.read_write_eq _ _ _ c hobj,
      UserCredentials.set_password]
  refine ⟨?_, ?_⟩
  · simp [MRCInterfaceProxy.handle, Request.set_credentials, Request.get_credentials, hset,
      (World.set_password_user_databases _ _ _).2,
      (UserDatabase.getCurrentUserCredentials_credentials _ _).2]
  · simpa [MRCInterfaceProxy.handle] using hset

theorem C9_injected_credentials_carry_proxy_password_witness :
    Request.sample.get_credentials = none ∧
    (UserDatabase.getCurrentUserCredentials
        (MRCProxy.constructor 0 "secret" (some 0) World.sample).1.user_database
        World.sample).1 = some 0 ∧
    (UserDatabase.getCurrentUserCredentials
        (MRCProxy.constructor 0 "secret" (some 0) World.sample).1.user_database
        World.sample).2.credentials.read 0 = some { identity := "alice", password := "" } ∧
    ((MRCProxy.constructor 0 "secret" (some 0) World.sample).1.handle
        Request.sample World.sample).2.forwarded
      = World.sample.forwarded
          ++ [({ credentials := some 0, message := Request.sample.message },
               some { identity := "alice", password := "secret" })] ∧
    ((MRCProxy.constructor 0 "secret" (some 0) World.sample).1.handle
        Request.sample World.sample).2.credentials.read 0
      = some { identity := "alice", password := "secret" } :=
  ⟨rfl, rfl, rfl,
   C9_injected_credentials_carry_proxy_password 0 "secret" (some 0) World.sample
     Request.sample World.sample 0 { identity := "alice", password := "" } rfl rfl rfl⟩

/-- C3, as stated, fails: on a credential source without a current identity
the first pass attaches nothing, so the second pass of the same request asks the
source again. Two passes consult the source twice, not once. -/
theorem C3_two_passes_consult_twice :
    Request.sample.get_credentials = none ∧
    World.anonymous.consultations MRCProxy.sample.user_database = 0 ∧
    (MRCProxy.sample.handle_times 2 Request.sample World.anonymous).2.consultations
        MRCProxy.sample.user_database = 2 ∧
    ¬ ((MRCProxy.sample.handle_times 2 Request.sample World.anonymous).2.consultations
          MRCProxy.sample.user_database
        = World.anonymous.consultations MRCProxy.sample.user_database + 1) := by
  refine ⟨rfl, rfl, rfl, ?_⟩
  decide

/-- C3, amended: when the first pass of a request without credentials obtains
an identity `p` from the credential source, passing that request through
`MRCProxy::handle` any number of times (at least once) consults the source
exactly once in total, and every pass, the first and each later one, forwards
the request with the credentials `p` attached by the first pass, the
credentials object being the same each time. -/
theorem C3_injection_once_when_identity_available {ι : Type} (self : MRCProxy)
    (request : Request) (w : World ι) (p : Ptr) (n : Nat)
    (hreq : request.get_credentials = none)
    (hsrc : (UserDatabase.getCurrentUserCredentials self.user_database w).1 = some p) :
    (self.handle_times (n + 1) request w).2.consultations self.user_database
      = w.consultations self.user_database + 1 ∧
    (self.handle_times (n + 1) request w).1.get_credentials = some p ∧
    (self.handle_times (n + 1) request w).2.forwarded
      = w.forwarded
          ++ List.replicate (n + 1)
              ({ credentials := some p, message := request.message },
               (self.handle request w).2.credentials.read p) := by
  have hcred : (request.set_credentials (some p)).get_credentials = some p := rfl
  simp only [MRCProxy.handle_times]
  rw [MRCProxy.handle_times_of_credentials self (self.handle request w).1 p
    (by rw [MRCProxy.handle_of_identity self request w p hreq hsrc]; rfl) n]
  rw [MRCProxy.handle_of_identity self request w p hreq hsrc]
  refine ⟨?_, hcred, ?_⟩
  · have h1 := UserDatabase.getCurrentUserCredentials_consultations self.user_database w p hsrc
    simpa [World.consultations, MRCInterfaceProxy.handle,
      (World.set_password_user_databases _ _ _).1] using h1
  · simp [MRCInterfaceProxy.handle, Request.set_credentials, Request.get_credentials,
      (World.set_password_user_databases _ _ _).2,
      (UserDatabase.getCurrentUserCredentials_credentials _ _).2, List.replicate_succ]

theorem C3_injection_once_when_identity_available_witness :
    Request.sample.get_credentials = none ∧
    (UserDatabase.getCurrentUserCredentials MRCProxy.sample.user_database World.sample).1
      = some 0 ∧
    (MRCProxy.sample.handle_times (2 + 1) Request.sample World.sample).2.consultations
        MRCProxy.sample.user_database
      = World.sample.consultations MRCProxy.sample.user_database + 1 ∧
    (MRCProxy.sample.handle_times (2 + 1) Request.sample World.sample).1.get_credentials
      = some 0 ∧
    (MRCProxy.sample.handle_times (2 + 1) Request.sample World.sample).2.forwarded
      = World.sample.forwarded
          ++ List.replicate (2 + 1)
              ({ credentials := some 0, message := Request.sample.message },
               (MRCProxy.sample.handle Request.sample World.sample).2.credentials.read 0) :=
  ⟨rfl, rfl,
   C3_injection_once_when_identity_available MRCProxy.sample Request.sample World.sample
     0 2 rfl rfl⟩

/-! ## Ownership of the credential source -/

theorem Object.inc_ref_read {ι : Type} (db : Ptr) (d : UserDatabase) (w : World ι)
    (hlive : w.user_databases.read db = some d) :
    (Object.inc_ref db w).1 = db ∧
    (Object.inc_ref db w).2.user_databases.read db
      = some { refcnt := d.refcnt + 1, consultations := d.consultations } ∧
    ∀ q, q ≠ db → (Object.inc_ref db w).2.user_databases.read q = w.user_databases.read q := by
  have hdef : Object.inc_ref db w
      = (db, { w with user_databases := w.user_databases.write db ⟨d.refcnt + 1, d.consultations⟩ }) := by
    simp [Object.inc_ref, hlive]
  rw [hdef]
  refine ⟨rfl, Heap.read_write_eq _ _ _ d hlive, ?_⟩
  intro q hq
  exact Heap.read_write_ne _ _ _ _ (Ne.symm hq)

theorem UserDatabase.new_read {ι : Type} (w : World ι) :
    w.user_databases.read (UserDatabase.new w).1 = none ∧
    (UserDatabase.new w).2.user_databases.read (UserDatabase.new w).1
      = some { refcnt := 1, consultations := 0 } ∧
    ∀ q, q ≠ (UserDatabase.new w).1 →
      (UserDatabase.new w).2.user_databases.read q = w.user_databases.read q := by
  refine ⟨Heap.read_length _, Heap.read_alloc_new _ _, ?_⟩
  intro q hq
  exact Heap.read_alloc_old _ _ q hq

/-- C4: given a non-NULL `user_database` that points to a live database, the
constructor stores that very pointer and the reference count of the object
behind it goes up by exactly one, nothing else changing; given `NULL`, in any
state whatever (the empty store included), it stores the address of a newly
created `UserDatabase`: an address that held no object before, now holding a
default-constructed database (never consulted) with reference count one, the
proxy's own reference, every other address reading as before. In both cases
the password is stored as given. -/
theorem C4_constructor_shares_or_creates_source {ι : Type} (request_handler : Ptr)
    (password : String) (w : World ι) :
    (∀ db d, w.user_databases.read db = some d →
      (MRCProxy.constructor request_handler password (some db) w).1.user_database = db ∧
      (MRCProxy.constructor request_handler password (some db) w).2.user_databases.read db
        = some { refcnt := d.refcnt + 1, consultations := d.consultations } ∧
      (∀ q, q ≠ db →
        (MRCProxy.constructor request_handler password (some db) w).2.user_databases.read q
          = w.user_databases.read q)) ∧
    ((MRCProxy.constructor request_handler password none w).1.user_database
        = w.user_databases.length ∧
     w.user_databases.read
        (MRCProxy.constructor request_handler password none w).1.user_database = none ∧
     (MRCProxy.constructor request_handler password none w).2.user_databases.read
        (MRCProxy.constructor request_handler password none w).1.user_database
       = some { refcnt := 1, consultations := 0 } ∧
     (∀ q, q ≠ (MRCProxy.constructor request_handler password none w).1.user_database →
       (MRCProxy.constructor request_handler password none w).2.user_databases.read q
         = w.user_databases.read q)) ∧
    (∀ db, (MRCProxy.constructor request_handler password (some db) w).1.password
      = password) ∧
    (MRCProxy.constructor request_handler password none w).1.password = password :=
  ⟨fun db d hlive => Object.inc_ref_read db d w hlive,
   ⟨rfl, UserDatabase.new_read w⟩, fun _ => rfl, rfl⟩

theorem C4_constructor_shares_or_creates_source_witness :
    World.sample.user_databases.read 0 = some { refcnt := 1, consultations := 0 } ∧
    (MRCProxy.constructor 0 "secret" (some 0) World.sample).1.user_database = 0 ∧
    (MRCProxy.constructor 0 "secret" (some 0) World.sample).2.user_databases.read 0
      = some { refcnt := 2, consultations := 0 } ∧
    (MRCProxy.constructor 0 "secret" none World.blank).1.user_database = 0 ∧
    World.blank.user_databases.read 0 = none ∧
    (MRCProxy.constructor 0 "secret" none World.blank).2.user_databases.read 0
      = some { refcnt := 1, consultations := 0 } ∧
    (MRCProxy.constructor 0 "secret" none World.sample).1.user_database = 1 ∧
    (MRCProxy.constructor 0 "secret" none World.sample).2.user_databases.read 1
      = some { refcnt := 1, consultations := 0 } :=
  have h := (C4_constructor_shares_or_creates_source 0 "secret" World.sample).1 0
    { refcnt := 1, consultations := 0 } rfl
  have hblank := (C4_constructor_shares_or_creates_source 0 "secret" World.blank).2.1
  have hsample := (C4_constructor_shares_or_creates_source 0 "secret" World.sample).2.1
  ⟨rfl, h.1, h.2.1, hblank.1, hblank.2.1, hblank.2.2.1, hsample.1, hsample.2.2.1⟩

namespace Volume

set_option maxRecDepth 100000 in
/-- Putting one more of the six flags into a mask below 64 keeps the mask below
64, sets that flag and leaves the test of every other flag as it was. -/
theorem cache_flag_or_mask :
    ∀ m, m < 64 → ∀ g ∈ cache_flags, ∀ f ∈ cache_flags,
      (g ||| m) < 64 ∧ (has_flag (g ||| m) f = true ↔ (g = f ∨ has_flag m f = true)) := by
  unfold cache_flags has_flag FLAG_WRITE_BACK_DATA_CACHE FLAG_WRITE_BACK_FILE_SIZE_CACHE
    FLAG_WRITE_BACK_STAT_CACHE FLAG_WRITE_THROUGH_DATA_CACHE
    FLAG_WRITE_THROUGH_FILE_SIZE_CACHE FLAG_WRITE_THROUGH_STAT_CACHE
  decide

theorem fold_cache_flags (s : List Nat) (hs : s ⊆ cache_flags) :
    s.foldr (fun f mask => f ||| mask) 0 < 64 ∧
    ∀ f ∈ cache_flags,
      (has_flag (s.foldr (fun f mask => f ||| mask) 0) f = true ↔ f ∈ s) := by
  induction s with
  | nil =>
    refine ⟨by simp, ?_⟩
    unfold cache_flags has_flag FLAG_WRITE_BACK_DATA_CACHE FLAG_WRITE_BACK_FILE_SIZE_CACHE
      FLAG_WRITE_BACK_STAT_CACHE FLAG_WRITE_THROUGH_DATA_CACHE
      FLAG_WRITE_THROUGH_FILE_SIZE_CACHE FLAG_WRITE_THROUGH_STAT_CACHE
    decide
  | cons g rest ih =>
    have hg : g ∈ cache_flags := hs (List.mem_cons_self g rest)
    have hrest : rest ⊆ cache_flags := fun x hx => hs (List.mem_cons_of_mem g hx)
    obtain ⟨hlt, htest⟩ := ih hrest
    refine ⟨(cache_flag_or_mask _ hlt g hg g hg).1, ?_⟩
    intro f hf
    rw [List.foldr_cons, (cache_flag_or_mask _ hlt g hg f hf).2, htest f hf, List.mem_cons]
    constructor
    · rintro (h | h)
      · exact Or.inl h.symm
      · exact Or.inr h
    · rintro (h | h)
      · exact Or.inl h.symm
      · exact Or.inr h

theorem combine_cache_flags (s : List Nat) (hs : s ⊆ cache_flags) :
    combine s < 64 ∧ ∀ f ∈ cache_flags, (has_flag (combine s) f = true ↔ f ∈ s) := by
  obtain ⟨hlt, htest⟩ := fold_cache_flags s hs
  have hmod : combine s = s.foldr (fun f mask => f ||| mask) 0 :=
    Nat.mod_eq_of_lt (Nat.lt_trans hlt (by decide))
  rw [hmod]
  exact ⟨hlt, htest⟩

end Volume

/-- C5: the six cache-policy flags are six distinct `uint32_t` values, each a
power of two, with pairwise zero bitwise AND. Hence the bitmask of any selection
of them fits `uint32_t`, a flag tests as set in the mask exactly when it was
selected, whatever the other five are, and two selections with the same mask
select the same flags. -/
theorem C5_cache_flags_compose_freely :
    Volume.cache_flags.length = 6 ∧
    Volume.cache_flags.Nodup ∧
    (∀ f ∈ Volume.cache_flags, (∃ k, f = 2 ^ k) ∧ f < 2 ^ 32) ∧
    (∀ f ∈ Volume.cache_flags, ∀ g ∈ Volume.cache_flags, f ≠ g → f &&& g = 0) ∧
    (∀ s, s ⊆ Volume.cache_flags →
      Volume.combine s < 2 ^ 32 ∧
      ∀ f ∈ Volume.cache_flags,
        (Volume.has_flag (Volume.combine s) f = true ↔ f ∈ s) ∧
        (Volume.combine s &&& f ≠ 0 ↔ f ∈ s)) ∧
    (∀ s t, s ⊆ Volume.cache_flags → t ⊆ Volume.cache_flags →
      Volume.combine s = Volume.combine t → ∀ f, f ∈ s ↔ f ∈ t) := by
  have hnonzero : ∀ m, m < 64 → ∀ f ∈ Volume.cache_flags,
      (m &&& f ≠ 0 ↔ Volume.has_flag m f = true) := by
    unfold Volume.cache_flags Volume.has_flag Volume.FLAG_WRITE_BACK_DATA_CACHE
      Volume.FLAG_WRITE_BACK_FILE_SIZE_CACHE Volume.FLAG_WRITE_BACK_STAT_CACHE
      Volume.FLAG_WRITE_THROUGH_DATA_CACHE Volume.FLAG_WRITE_THROUGH_FILE_SIZE_CACHE
      Volume.FLAG_WRITE_THROUGH_STAT_CACHE
    decide
  refine ⟨rfl, by decide, ?_, by decide, ?_, ?_⟩
  · intro f hf
    simp only [Volume.cache_flags, Volume.FLAG_WRITE_BACK_DATA_CACHE,
      Volume.FLAG_WRITE_BACK_FILE_SIZE_CACHE, Volume.FLAG_WRITE_BACK_STAT_CACHE,
      Volume.FLAG_WRITE_THROUGH_DATA_CACHE, Volume.FLAG_WRITE_THROUGH_FILE_SIZE_CACHE,
      Volume.FLAG_WRITE_THROUGH_STAT_CACHE, List.mem_cons, List.mem_singleton,
      List.mem_nil_iff, or_false] at hf
    rcases hf with h | h | h | h | h | h <;> subst h
    · exact ⟨⟨0, rfl⟩, by decide⟩
    · exact ⟨⟨1, rfl⟩, by decide⟩
    · exact ⟨⟨2, rfl⟩, by decide⟩
    · exact ⟨⟨3, rfl⟩, by decide⟩
    · exact ⟨⟨4, rfl⟩, by decide⟩
    · exact ⟨⟨5, rfl⟩, by decide⟩
  · intro s hs
    obtain ⟨hlt, htest⟩ := Volume.combine_cache_flags s hs
    refine ⟨Nat.lt_trans hlt (by decide), ?_⟩
    intro f hf
    exact ⟨htest f hf, (hnonzero _ hlt f hf).trans (htest f hf)⟩
  · intro s t hs ht heq f
    by_cases hf : f ∈ Volume.cache_flags
    · rw [← (Volume.combine_cache_flags s hs).2 f hf, heq,
        (Volume.combine_cache_flags t ht).2 f hf]
    · exact ⟨fun h => absurd (hs h) hf, fun h => absurd (ht h) hf⟩

theorem C5_cache_flags_compose_freely_witness :
    (Volume.has_flag
        (Volume.combine [Volume.FLAG_WRITE_BACK_DATA_CACHE, Volume.FLAG_WRITE_THROUGH_STAT_CACHE])
        Volume.FLAG_WRITE_THROUGH_STAT_CACHE = true
      ↔ Volume.FLAG_WRITE_THROUGH_STAT_CACHE
          ∈ [Volume.FLAG_WRITE_BACK_DATA_CACHE, Volume.FLAG_WRITE_THROUGH_STAT_CACHE]) ∧
    (Volume.has_flag
        (Volume.combine [Volume.FLAG_WRITE_BACK_DATA_CACHE, Volume.FLAG_WRITE_THROUGH_STAT_CACHE])
        Volume.FLAG_WRITE_BACK_STAT_CACHE = true
      ↔ Volume.FLAG_WRITE_BACK_STAT_CACHE
          ∈ [Volume.FLAG_WRITE_BACK_DATA_CACHE, Volume.FLAG_WRITE_THROUGH_STAT_CACHE]) :=
  have h := (C5_cache_flags_compose_freely.2.2.2.2.1
    [Volume.FLAG_WRITE_BACK_DATA_CACHE, Volume.FLAG_WRITE_THROUGH_STAT_CACHE]
    (by decide)).2
  ⟨(h Volume.FLAG_WRITE_THROUGH_STAT_CACHE (by decide)).1,
   (h Volume.FLAG_WRITE_BACK_STAT_CACHE (by decide)).1⟩

/-- C6: a `Volume` created without a flags argument gets `FLAGS_DEFAULT`, and
`FLAGS_DEFAULT` has the write-back file-size flag set, has neither the
write-back data flag nor the write-back stat flag set, and for none of the three
cache kinds has both the write-back and the write-through flag set. -/
theorem C6_default_cache_policy :
    Volume.create_flags none = Volume.FLAGS_DEFAULT ∧
    Volume.has_flag Volume.FLAGS_DEFAULT Volume.FLAG_WRITE_BACK_FILE_SIZE_CACHE = true ∧
    Volume.has_flag Volume.FLAGS_DEFAULT Volume.FLAG_WRITE_BACK_DATA_CACHE = false ∧
    Volume.has_flag Volume.FLAGS_DEFAULT Volume.FLAG_WRITE_BACK_STAT_CACHE = false ∧
    Volume.FLAGS_DEFAULT &&& Volume.FLAG_WRITE_BACK_FILE_SIZE_CACHE ≠ 0 ∧
    Volume.FLAGS_DEFAULT &&& Volume.FLAG_WRITE_BACK_DATA_CACHE = 0 ∧
    Volume.FLAGS_DEFAULT &&& Volume.FLAG_WRITE_BACK_STAT_CACHE = 0 ∧
    ¬ (Volume.has_flag Volume.FLAGS_DEFAULT Volume.FLAG_WRITE_BACK_DATA_CACHE = true ∧
       Volume.has_flag Volume.FLAGS_DEFAULT Volume.FLAG_WRITE_THROUGH_DATA_CACHE = true) ∧
    ¬ (Volume.has_flag Volume.FLAGS_DEFAULT Volume.FLAG_WRITE_BACK_FILE_SIZE_CACHE = true ∧
       Volume.has_flag Volume.FLAGS_DEFAULT Volume.FLAG_WRITE_THROUGH_FILE_SIZE_CACHE = true) ∧
    ¬ (Volume.has_flag Volume.FLAGS_DEFAULT Volume.FLAG_WRITE_BACK_STAT_CACHE = true ∧
       Volume.has_flag Volume.FLAGS_DEFAULT Volume.FLAG_WRITE_THROUGH_STAT_CACHE = true) := by
  decide

/-! ## The file-state table -/

namespace Volume

theorem FileStateMap.count_nil (path : String) : FileStateMap.count [] path = 0 := rfl

theorem FileStateMap.count_cons (e : String × Ptr) (m : FileStateMap) (path : String) :
    FileStateMap.count (e :: m) path
      = (if e.1 = path then 1 else 0) + FileStateMap.count m path := by
  unfold FileStateMap.count
  by_cases h : e.1 = path
  · simp [List.filter_cons, h]; omega
  · simp [List.filter_cons, h]

theorem FileStateMap.find_eq_none (m : FileStateMap) (path : String) :
    FileStateMap.find m path = none ↔ FileStateMap.count m path = 0 := by
  induction m with
  | nil => simp [FileStateMap.find, FileStateMap.count]
  | cons e rest ih =>
    rw [FileStateMap.count_cons]
    by_cases h : e.1 = path
    · simp [FileStateMap.find, List.find?_cons, h]
    · have h2 : FileStateMap.find (e :: rest) path = FileStateMap.find rest path := by
        simp [FileStateMap.find, List.find?_cons, h]
      rw [h2, ih]
      simp [h]

theorem FileStateMap.count_erase (m : FileStateMap) (path q : String) :
    FileStateMap.count (FileStateMap.erase m path) q
      = if q = path then 0 else FileStateMap.count m q := by
  induction m with
  | nil => simp [FileStateMap.erase, FileStateMap.count]
  | cons e rest ih =>
    by_cases h : e.1 = path
    · have h2 : FileStateMap.erase (e :: rest) path = FileStateMap.erase rest path := by
        simp [FileStateMap.erase, List.filter_cons, h]
      rw [h2, ih, FileStateMap.count_cons]
      by_cases hq : q = path
      · simp [hq]
      · have : ¬ e.1 = q := by rw [h]; exact fun x => hq x.symm
        simp [hq, this]
    · have h2 : FileStateMap.erase (e :: rest) path = e :: FileStateMap.erase rest path := by
        simp [FileStateMap.erase, List.filter_cons, h]
      rw [h2, FileStateMap.count_cons, ih, FileStateMap.count_cons]
      by_cases hq : q = path
      · have : ¬ e.1 = q := by rw [hq]; exact h
        simp [hq, h]
      · simp [hq]

theorem FileStateMap.count_map_value (m : FileStateMap) (path q : String) (fs : Ptr) :
    FileStateMap.count (m.map (fun e => if e.1 == path then (e.1, fs) else e)) q
      = FileStateMap.count m q := by
  induction m with
  | nil => rfl
  | cons e rest ih =>
    rw [List.map_cons, FileStateMap.count_cons, ih, FileStateMap.count_cons]
    by_cases h : e.1 = path <;> simp [h]

theorem FileStateMap.count_insert (m : FileStateMap) (path q : String) (fs : Ptr) :
    FileStateMap.count (FileStateMap.insert m path fs) q
      = if q = path ∧ FileStateMap.count m path = 0 then 1 else FileStateMap.count m q := by
  unfold FileStateMap.insert
  cases hf : FileStateMap.find m path with
  | none =>
    have h0 := (FileStateMap.find_eq_none m path).mp hf
    simp only [FileStateMap.count_cons, h0]
    by_cases hq : q = path
    · subst hq; simp [h0]
    · have : ¬ path = q := fun x => hq x.symm
      simp [hq, this]
  | some v =>
    have h0 : FileStateMap.count m path ≠ 0 := by
      intro h
      rw [(FileStateMap.find_eq_none m path).mpr h] at hf
      cases hf
    simp [h0]

theorem FileStateMap.count_insert_or_update (m : FileStateMap) (path q : String) (fs : Ptr) :
    FileStateMap.count (FileStateMap.insert_or_update m path fs) q
      = if q = path ∧ FileStateMap.count m path = 0 then 1 else FileStateMap.count m q := by
  unfold FileStateMap.insert_or_update
  cases hf : FileStateMap.find m path with
  | none =>
    have h0 := (FileStateMap.find_eq_none m path).mp hf
    simp only [FileStateMap.count_cons, h0]
    by_cases hq : q = path
    · subst hq; simp [h0]
    · have : ¬ path = q := fun x => hq x.symm
      simp [hq, this]
  | some v =>
    have h0 : FileStateMap.count m path ≠ 0 := by
      intro h
      rw [(FileStateMap.find_eq_none m path).mpr h] at hf
      cases hf
    show FileStateMap.count (m.map (fun e => if e.1 == path then (e.1, fs) else e)) q = _
    rw [FileStateMap.count_map_value]
    simp [h0]
theorem FileStateMap.count_le_one_of_reachable (m : FileStateMap)
    (hm : FileStateMap.Reachable m) (q : String) : FileStateMap.count m q ≤ 1 := by
  induction hm generalizing q with
  | empty => simp [FileStateMap.count]
  | insert m path fs _ ih =>
    rw [FileStateMap.count_insert]
    split
    · exact Nat.le_refl 1
    · exact ih q
  | insert_or_update m path fs _ ih =>
    rw [FileStateMap.count_insert_or_update]
    split
    · exact Nat.le_refl 1
    · exact ih q
  | erase m path _ ih =>
    rw [FileStateMap.count_erase]
    split
    · exact Nat.zero_le 1
    · exact ih q

theorem FileStateMap.mem_unique_of_length_le_one {α : Type} (l : List α)
    (hlen : l.length ≤ 1) (a b : α) (ha : a ∈ l) (hb : b ∈ l) : a = b := by
  cases l with
  | nil => cases ha
  | cons x rest =>
    cases rest with
    | nil =>
      rw [List.mem_singleton] at ha hb
      rw [ha, hb]
    | cons y r => simp at hlen

theorem FileStateMap.entry_unique (m : FileStateMap) (path : String) (fs1 fs2 : Ptr)
    (hcount : FileStateMap.count m path ≤ 1)
    (h1 : (path, fs1) ∈ m) (h2 : (path, fs2) ∈ m) : fs1 = fs2 := by
  have m1 : (path, fs1) ∈ m.filter (fun e => e.1 == path) := by
    simp [List.mem_filter, h1]
  have m2 : (path, fs2) ∈ m.filter (fun e => e.1 == path) := by
    simp [List.mem_filter, h2]
  have heq := FileStateMap.mem_unique_of_length_le_one _ hcount _ _ m1 m2
  exact (Prod.mk.inj heq).2

end Volume

/-- C7: in every state the file-state table of a `Volume` can reach from the
empty table through its operations, a path has at most one entry, so no path is
associated with two different `FileState` objects; inserting an entry for a
path that is already present leaves the table as it was, with exactly one entry
for that path, and so does not add a second one, and assigning to a present
path keeps exactly one entry too. -/
theorem C7_at_most_one_file_state_per_path (m : Volume.FileStateMap)
    (hm : Volume.FileStateMap.Reachable m) :
    (∀ path, Volume.FileStateMap.count m path ≤ 1) ∧
    (∀ path fs1 fs2, (path, fs1) ∈ m → (path, fs2) ∈ m → fs1 = fs2) ∧
    (∀ path file_state, Volume.FileStateMap.find m path ≠ none →
      Volume.FileStateMap.insert m path file_state = m ∧
      Volume.FileStateMap.count (Volume.FileStateMap.insert m path file_state) path = 1) ∧
    (∀ path file_state, Volume.FileStateMap.find m path ≠ none →
      Volume.FileStateMap.count
        (Volume.FileStateMap.insert_or_update m path file_state) path = 1) ∧
    (∀ path file_state q,
      Volume.FileStateMap.count (Volume.FileStateMap.insert m path file_state) q ≤ 1) := by
  have hle := Volume.FileStateMap.count_le_one_of_reachable m hm
  have hpresent : ∀ path, Volume.FileStateMap.find m path ≠ none →
      Volume.FileStateMap.count m path = 1 := by
    intro path hfind
    have h0 : Volume.FileStateMap.count m path ≠ 0 :=
      fun h => hfind ((Volume.FileStateMap.find_eq_none m path).mpr h)
    exact Nat.le_antisymm (hle path) (Nat.pos_of_ne_zero h0)
  refine ⟨hle, ?_, ?_, ?_, ?_⟩
  · intro path fs1 fs2 h1 h2
    exact Volume.FileStateMap.entry_unique m path fs1 fs2 (hle path) h1 h2
  · intro path file_state hfind
    have heq : Volume.FileStateMap.insert m path file_state = m := by
      unfold Volume.FileStateMap.insert
      cases hf : Volume.FileStateMap.find m path with
      | none => exact absurd hf hfind
      | some v => rfl
    rw [heq]
    exact ⟨rfl, hpresent path hfind⟩
  · intro path file_state hfind
    rw [Volume.FileStateMap.count_insert_or_update]
    simp [hpresent path hfind]
  · intro path file_state q
    exact Volume.FileStateMap.count_le_one_of_reachable _
      (Volume.FileStateMap.Reachable.insert m path file_state hm) q

theorem C7_at_most_one_file_state_per_path_witness :
    Volume.FileStateMap.Reachable (Volume.FileStateMap.insert [] "/a" 1) ∧
    Volume.FileStateMap.find (Volume.FileStateMap.insert [] "/a" 1) "/a" ≠ none ∧
    Volume.FileStateMap.insert (Volume.FileStateMap.insert [] "/a" 1) "/a" 2
      = Volume.FileStateMap.insert [] "/a" 1 ∧
    Volume.FileStateMap.count
      (Volume.FileStateMap.insert (Volume.FileStateMap.insert [] "/a" 1) "/a" 2) "/a" = 1 :=
  have hreach : Volume.FileStateMap.Reachable (Volume.FileStateMap.insert [] "/a" 1) :=
    Volume.FileStateMap.Reachable.insert [] "/a" 1 Volume.FileStateMap.Reachable.empty
  have hfind : Volume.FileStateMap.find (Volume.FileStateMap.insert [] "/a" 1) "/a" ≠ none := by
    decide
  ⟨hreach, hfind,
   (C7_at_most_one_file_state_per_path _ hreach).2.2.1 "/a" 2 hfind⟩

end xtreemfs
